import Mathlib

/-!
Shallow embedding of `src/smart_home_boxle/plot_utility.h`, a small 2D
plotting helper with linear axes.  C++ `double` values are modelled as `ℚ`
(exact arithmetic), `int` as `ℤ`, `static_cast<int>` as truncation toward
zero, and `std::vector` as `List`.  Each member function is embedded as a
function taking the instance state and returning the sequence of callback
invocation records it would perform together with the instance state after
the call (the class methods are stateful C++ code; the setters mutate the
tick lists, the others leave the state untouched).  A failing `assert` is
modelled as a `false`/`none` result produced before any state change, which
matches the source order of checks and mutations.
-/

/-- Truncation of a rational toward zero, the semantics of C++
`static_cast<int>` from `double` (for values in `int` range). -/
def ratTrunc (q : ℚ) : ℤ := if 0 ≤ q then ⌊q⌋ else ⌈q⌉

/-- `struct PlotTick`: a tick on an axis with value and label. -/
structure PlotTick where
  value : ℚ
  label : String
deriving DecidableEq, Repr

/-- `struct PlotPoint`: a point in the plot area. -/
structure PlotPoint where
  x : ℚ
  y : ℚ
deriving DecidableEq, Repr

/-- The fields of `class PlotUtility`: screen position/size, axis ranges,
and the two mutable tick lists. -/
structure PlotUtility where
  posX : ℤ
  posY : ℤ
  width : ℤ
  height : ℤ
  minX : ℚ
  maxX : ℚ
  minY : ℚ
  maxY : ℚ
  xTicks : List PlotTick
  yTicks : List PlotTick
deriving DecidableEq, Repr

/-- The constructor `PlotUtility::PlotUtility`: stores the eight arguments
and asserts `width > 0`, `height > 0`, `minX < maxX`, `minY < maxY`; an
assertion failure is modelled as `none` (no instance is produced).  The
tick vectors start empty. -/
def PlotUtility.make (posX posY width height : ℤ)
    (minX maxX minY maxY : ℚ) : Option PlotUtility :=
  if 0 < width ∧ 0 < height ∧ minX < maxX ∧ minY < maxY then
    some ⟨posX, posY, width, height, minX, maxX, minY, maxY, [], []⟩
  else
    none

/-- `setXTicks`: asserts every tick value is within `[minX, maxX]`, then
clears and replaces `xTicks`.  The `Bool` is `true` when all assertions
pass; on failure the state is returned as it was at the failing assert
(no mutation has happened yet in the source). -/
def PlotUtility.setXTicks (s : PlotUtility) (ticks : List PlotTick) :
    Bool × PlotUtility :=
  if ticks.all (fun tick => decide (s.minX ≤ tick.value) &&
      decide (tick.value ≤ s.maxX)) then
    (true, { s with xTicks := ticks })
  else
    (false, s)

/-- `setYTicks`: asserts every tick value is within `[minY, maxY]`, then
clears and replaces `yTicks`. -/
def PlotUtility.setYTicks (s : PlotUtility) (ticks : List PlotTick) :
    Bool × PlotUtility :=
  if ticks.all (fun tick => decide (s.minY ≤ tick.value) &&
      decide (tick.value ≤ s.maxY)) then
    (true, { s with yTicks := ticks })
  else
    (false, s)

/-- `drawXAxis`: computes the baseline endpoints and calls `drawLineFunc`
once; the record `(x0, y0, x1, y1)` is that single callback invocation. -/
def PlotUtility.drawXAxis (s : PlotUtility) :
    (ℤ × ℤ × ℤ × ℤ) × PlotUtility :=
  ((s.posX, s.posY + s.height - 1, s.posX + s.width - 1,
    s.posY + s.height - 1), s)

/-- `drawYAxis`: computes the left-edge endpoints and calls `drawLineFunc`
once. -/
def PlotUtility.drawYAxis (s : PlotUtility) :
    (ℤ × ℤ × ℤ × ℤ) × PlotUtility :=
  ((s.posX, s.posY + s.height - 1, s.posX, s.posY), s)

/-- `getXPixelForXValue`: `static_cast<int>(posX + (width - 1) * (x - minX)
/ (maxX - minX) + 0.5)`. -/
def PlotUtility.getXPixelForXValue (s : PlotUtility) (x : ℚ) :
    ℤ × PlotUtility :=
  (ratTrunc ((s.posX : ℚ) +
    ((s.width : ℚ) - 1) * (x - s.minX) / (s.maxX - s.minX) + 1/2), s)

/-- `getYPixelForYValue`: `static_cast<int>(posY + (height - 1) * (maxY - y)
/ (maxY - minY) + 0.5)`. -/
def PlotUtility.getYPixelForYValue (s : PlotUtility) (y : ℚ) :
    ℤ × PlotUtility :=
  (ratTrunc ((s.posY : ℚ) +
    ((s.height : ℚ) - 1) * (s.maxY - y) / (s.maxY - s.minY) + 1/2), s)

/-- The loop body of `drawXTicks`: one callback record
`(x, y, relativePosition, label)` per tick, in list order. -/
def drawXTicksLoop (s : PlotUtility) : List PlotTick →
    List (ℤ × ℤ × ℚ × String)
  | [] => []
  | tick :: rest =>
    ((s.getXPixelForXValue tick.value).1, s.posY + s.height - 1,
      (tick.value - s.minX) / (s.maxX - s.minX), tick.label) ::
    drawXTicksLoop s rest

/-- `drawXTicks`: iterates the stored `xTicks`, invoking `drawTickFunc`
once per tick. -/
def PlotUtility.drawXTicks (s : PlotUtility) :
    List (ℤ × ℤ × ℚ × String) × PlotUtility :=
  (drawXTicksLoop s s.xTicks, s)

/-- The loop body of `drawYTicks`. -/
def drawYTicksLoop (s : PlotUtility) : List PlotTick →
    List (ℤ × ℤ × ℚ × String)
  | [] => []
  | tick :: rest =>
    (s.posX, (s.getYPixelForYValue tick.value).1,
      (tick.value - s.minY) / (s.maxY - s.minY), tick.label) ::
    drawYTicksLoop s rest

/-- `drawYTicks`: iterates the stored `yTicks`, invoking `drawTickFunc`
once per tick. -/
def PlotUtility.drawYTicks (s : PlotUtility) :
    List (ℤ × ℤ × ℚ × String) × PlotUtility :=
  (drawYTicksLoop s s.yTicks, s)

/-- The loop body of `drawPoints`: one callback record `(x, y, point)` per
input point, in input order. -/
def drawPointsLoop (s : PlotUtility) : List PlotPoint →
    List (ℤ × ℤ × PlotPoint)
  | [] => []
  | point :: rest =>
    ((s.getXPixelForXValue point.x).1, (s.getYPixelForYValue point.y).1,
      point) :: drawPointsLoop s rest

/-- `drawPoints`: transforms each input point and invokes `drawPointFunc`
once per point. -/
def PlotUtility.drawPoints (s : PlotUtility) (points : List PlotPoint) :
    List (ℤ × ℤ × PlotPoint) × PlotUtility :=
  (drawPointsLoop s points, s)

/-- The loop of `drawLinesBetweenPoints`, carrying `prevPoint`, `prevX`,
`prevY` and the `isFirst` flag exactly as the source does (the source
leaves `prevPoint` default-initialized; it is never read while `isFirst`
is true, and we start it at `⟨0, 0⟩`). -/
def drawLinesLoop (s : PlotUtility) (prevPoint : PlotPoint)
    (prevX prevY : ℤ) (isFirst : Bool) :
    List PlotPoint → List (ℤ × ℤ × ℤ × ℤ × PlotPoint × PlotPoint)
  | [] => []
  | point :: rest =>
    let x := (s.getXPixelForXValue point.x).1
    let y := (s.getYPixelForYValue point.y).1
    if isFirst then
      drawLinesLoop s point x y false rest
    else
      (prevX, prevY, x, y, prevPoint, point) ::
        drawLinesLoop s point x y false rest

/-- `drawLinesBetweenPoints`: invokes `drawLineFunc` once per pair of
consecutive input points. -/
def PlotUtility.drawLinesBetweenPoints (s : PlotUtility)
    (points : List PlotPoint) :
    List (ℤ × ℤ × ℤ × ℤ × PlotPoint × PlotPoint) × PlotUtility :=
  (drawLinesLoop s ⟨0, 0⟩ 0 0 true points, s)

/-- The plotter of the spec's concrete scenario:
`posX=0, posY=0, width=100, height=50, minX=0, maxX=10, minY=0, maxY=5`. -/
def samplePlotter : PlotUtility :=
  ⟨0, 0, 100, 50, 0, 10, 0, 5, [], []⟩

/-- A validly constructed plotter placed at a negative screen position. -/
def cexPlotter : PlotUtility :=
  ⟨-3, 0, 2, 2, 0, 1, 0, 1, [], []⟩

/-! ## Helper lemmas -/

theorem ratTrunc_mono {a b : ℚ} (h : a ≤ b) : ratTrunc a ≤ ratTrunc b := by
  by_cases ha : 0 ≤ a <;> by_cases hb : 0 ≤ b
  · simp only [ratTrunc, if_pos ha, if_pos hb]
    exact Int.floor_le_floor h
  · exact absurd (le_trans ha h) hb
  · simp only [ratTrunc, if_neg ha, if_pos hb]
    calc ⌈a⌉ ≤ 0 := Int.ceil_le.mpr (by push_cast; linarith [lt_of_not_le ha])
      _ ≤ ⌊b⌋ := Int.floor_nonneg.mpr hb
  · simp only [ratTrunc, if_neg ha, if_neg hb]
    exact Int.ceil_le_ceil h

theorem ratTrunc_intCast_add_half (n : ℤ) (hn : 0 ≤ n) :
    ratTrunc ((n : ℚ) + 1/2) = n := by
  have hn' : (0 : ℚ) ≤ (n : ℚ) := by exact_mod_cast hn
  unfold ratTrunc
  rw [if_pos (by linarith), add_comm, Int.floor_add_int]
  norm_num

theorem make_eq_some {pX pY w h : ℤ} {mX MX mY MY : ℚ} {s : PlotUtility}
    (hs : PlotUtility.make pX pY w h mX MX mY MY = some s) :
    (0 < w ∧ 0 < h ∧ mX < MX ∧ mY < MY) ∧
    s = ⟨pX, pY, w, h, mX, MX, mY, MY, [], []⟩ := by
  unfold PlotUtility.make at hs
  split_ifs at hs with hc
  exact ⟨hc, (Option.some_inj.mp hs).symm⟩

theorem setXTicks_eq_true {s s' : PlotUtility} {ticks : List PlotTick}
    (h : s.setXTicks ticks = (true, s')) :
    s' = { s with xTicks := ticks } ∧
    ∀ tick ∈ ticks, s.minX ≤ tick.value ∧ tick.value ≤ s.maxX := by
  unfold PlotUtility.setXTicks at h
  split_ifs at h with hc
  · refine ⟨(congrArg Prod.snd h).symm, ?_⟩
    intro tick ht
    have := List.all_eq_true.mp hc tick ht
    simp only [Bool.and_eq_true, decide_eq_true_eq] at this
    exact this
  · exact absurd (congrArg Prod.fst h) (by simp)

theorem setYTicks_eq_true {s s' : PlotUtility} {ticks : List PlotTick}
    (h : s.setYTicks ticks = (true, s')) :
    s' = { s with yTicks := ticks } ∧
    ∀ tick ∈ ticks, s.minY ≤ tick.value ∧ tick.value ≤ s.maxY := by
  unfold PlotUtility.setYTicks at h
  split_ifs at h with hc
  · refine ⟨(congrArg Prod.snd h).symm, ?_⟩
    intro tick ht
    have := List.all_eq_true.mp hc tick ht
    simp only [Bool.and_eq_true, decide_eq_true_eq] at this
    exact this
  · exact absurd (congrArg Prod.fst h) (by simp)

theorem drawXTicksLoop_eq_map (s : PlotUtility) (ticks : List PlotTick) :
    drawXTicksLoop s ticks = ticks.map (fun tick =>
      ((s.getXPixelForXValue tick.value).1, s.posY + s.height - 1,
        (tick.value - s.minX) / (s.maxX - s.minX), tick.label)) := by
  induction ticks with
  | nil => rfl
  | cons tick rest ih => simp [drawXTicksLoop, ih]

theorem drawYTicksLoop_eq_map (s : PlotUtility) (ticks : List PlotTick) :
    drawYTicksLoop s ticks = ticks.map (fun tick =>
      (s.posX, (s.getYPixelForYValue tick.value).1,
        (tick.value - s.minY) / (s.maxY - s.minY), tick.label)) := by
  induction ticks with
  | nil => rfl
  | cons tick rest ih => simp [drawYTicksLoop, ih]

theorem drawPointsLoop_eq_map (s : PlotUtility) (points : List PlotPoint) :
    drawPointsLoop s points = points.map (fun point =>
      ((s.getXPixelForXValue point.x).1, (s.getYPixelForYValue point.y).1,
        point)) := by
  induction points with
  | nil => rfl
  | cons point rest ih => simp [drawPointsLoop, ih]

theorem drawLinesLoop_eq_zip (s : PlotUtility) (points : List PlotPoint) :
    ∀ prev : PlotPoint,
      drawLinesLoop s prev (s.getXPixelForXValue prev.x).1
          (s.getYPixelForYValue prev.y).1 false points =
        ((prev :: points).zip points).map (fun pq =>
          ((s.getXPixelForXValue pq.1.x).1, (s.getYPixelForYValue pq.1.y).1,
           (s.getXPixelForXValue pq.2.x).1, (s.getYPixelForYValue pq.2.y).1,
           pq.1, pq.2)) := by
  induction points with
  | nil => intro prev; rfl
  | cons point rest ih =>
    intro prev
    simp only [drawLinesLoop, if_neg (by simp : ¬ (false : Bool) = true),
      List.zip_cons_cons, List.map_cons]
    exact congrArg _ (ih point)

/-! ## Claim theorems -/

/-- Claim C4: `drawLinesBetweenPoints` invokes the callback exactly
`max(n-1, 0)` times, once per pair of consecutive points in strict input
order, passing both endpoints' pixel coordinates (computed by the two
coordinate transforms) and both original points; it never pairs
non-adjacent points and never wraps. -/
theorem drawLines_consecutive_pairs :
    ∀ (s : PlotUtility) (points : List PlotPoint),
      (s.drawLinesBetweenPoints points).1 =
        (points.zip points.tail).map (fun pq =>
          ((s.getXPixelForXValue pq.1.x).1, (s.getYPixelForYValue pq.1.y).1,
           (s.getXPixelForXValue pq.2.x).1, (s.getYPixelForYValue pq.2.y).1,
           pq.1, pq.2)) ∧
      (s.drawLinesBetweenPoints points).1.length = points.length - 1 := by
  intro s points
  have hmain : (s.drawLinesBetweenPoints points).1 =
      (points.zip points.tail).map (fun pq =>
        ((s.getXPixelForXValue pq.1.x).1, (s.getYPixelForYValue pq.1.y).1,
         (s.getXPixelForXValue pq.2.x).1, (s.getYPixelForYValue pq.2.y).1,
         pq.1, pq.2)) := by
    cases points with
    | nil => rfl
    | cons p rest =>
      show drawLinesLoop s ⟨0, 0⟩ 0 0 true (p :: rest) = _
      rw [show drawLinesLoop s ⟨0, 0⟩ 0 0 true (p :: rest) =
          drawLinesLoop s p (s.getXPixelForXValue p.x).1
            (s.getYPixelForYValue p.y).1 false rest from rfl]
      exact drawLinesLoop_eq_zip s rest p
  refine ⟨hmain, ?_⟩
  rw [hmain]
  simp only [List.length_map, List.length_zip, List.length_tail]
  omega

/-- Claim C5: `drawXTicks` invokes the callback exactly once per stored
tick, in stored order, with pixel x `getXPixelForXValue(tick.value)`,
pixel y on the baseline `posY + height - 1`, relative position
`(value - minX) / (maxX - minX)` and the tick's label; an empty stored
list yields no invocations. -/
theorem drawXTicks_per_tick :
    ∀ s : PlotUtility,
      (s.drawXTicks).1 = s.xTicks.map (fun tick =>
        ((s.getXPixelForXValue tick.value).1, s.posY + s.height - 1,
          (tick.value - s.minX) / (s.maxX - s.minX), tick.label)) ∧
      (s.drawXTicks).1.length = s.xTicks.length := by
  intro s
  refine ⟨drawXTicksLoop_eq_map s s.xTicks, ?_⟩
  show (drawXTicksLoop s s.xTicks).length = _
  rw [drawXTicksLoop_eq_map]
  exact List.length_map _ _

/-- Claim C6: `drawPoints` invokes the callback exactly once per input
point, in input order, with the transformed pixel coordinates and the
original point; no deduplication, sorting or clipping happens (the output
is exactly the pointwise image of the whole input list). -/
theorem drawPoints_per_point :
    ∀ (s : PlotUtility) (points : List PlotPoint),
      (s.drawPoints points).1 = points.map (fun point =>
        ((s.getXPixelForXValue point.x).1, (s.getYPixelForYValue point.y).1,
          point)) ∧
      (s.drawPoints points).1.length = points.length := by
  intro s points
  refine ⟨drawPointsLoop_eq_map s points, ?_⟩
  show (drawPointsLoop s points).length = _
  rw [drawPointsLoop_eq_map]
  exact List.length_map _ _

/-- Claim C8: for the plotter `posX=0, posY=0, width=100, height=50,
minX=0, maxX=10, minY=0, maxY=5`, the transforms give
`pixelXForValue(0)=0`, `pixelXForValue(10)=99`, `pixelXForValue(5)=50`
(the half-way value 49.5 rounds up), `pixelYForValue(5)=0` and
`pixelYForValue(0)=49`. -/
theorem sample_pixel_values :
    PlotUtility.make 0 0 100 50 0 10 0 5 = some samplePlotter ∧
    (samplePlotter.getXPixelForXValue 0).1 = 0 ∧
    (samplePlotter.getXPixelForXValue 10).1 = 99 ∧
    (samplePlotter.getXPixelForXValue 5).1 = 50 ∧
    (samplePlotter.getYPixelForYValue 5).1 = 0 ∧
    (samplePlotter.getYPixelForYValue 0).1 = 49 := by
  refine ⟨rfl, ?_, ?_, ?_, ?_, ?_⟩ <;>
    norm_num [samplePlotter, PlotUtility.getXPixelForXValue,
      PlotUtility.getYPixelForYValue, ratTrunc]

/-- Claim C10: a successful `setXTicks` leaves the y-tick list and all
eight geometry values unchanged, a successful `setYTicks` leaves the
x-tick list and the geometry unchanged, and the six drawing methods and
the two coordinate transforms leave the entire instance state unchanged. -/
theorem frame_conditions :
    (∀ (s s' : PlotUtility) (ticks : List PlotTick),
      s.setXTicks ticks = (true, s') →
        s'.yTicks = s.yTicks ∧ s'.posX = s.posX ∧ s'.posY = s.posY ∧
        s'.width = s.width ∧ s'.height = s.height ∧ s'.minX = s.minX ∧
        s'.maxX = s.maxX ∧ s'.minY = s.minY ∧ s'.maxY = s.maxY) ∧
    (∀ (s s' : PlotUtility) (ticks : List PlotTick),
      s.setYTicks ticks = (true, s') →
        s'.xTicks = s.xTicks ∧ s'.posX = s.posX ∧ s'.posY = s.posY ∧
        s'.width = s.width ∧ s'.height = s.height ∧ s'.minX = s.minX ∧
        s'.maxX = s.maxX ∧ s'.minY = s.minY ∧ s'.maxY = s.maxY) ∧
    (∀ s : PlotUtility,
      (s.drawXAxis).2 = s ∧ (s.drawYAxis).2 = s ∧
      (s.drawXTicks).2 = s ∧ (s.drawYTicks).2 = s ∧
      (∀ points : List PlotPoint, (s.drawPoints points).2 = s ∧
        (s.drawLinesBetweenPoints points).2 = s) ∧
      (∀ q : ℚ, (s.getXPixelForXValue q).2 = s ∧
        (s.getYPixelForYValue q).2 = s)) := by
  refine ⟨?_, ?_, ?_⟩
  · intro s s' ticks h
    rw [(setXTicks_eq_true h).1]
    exact ⟨rfl, rfl, rfl, rfl, rfl, rfl, rfl, rfl, rfl⟩
  · intro s s' ticks h
    rw [(setYTicks_eq_true h).1]
    exact ⟨rfl, rfl, rfl, rfl, rfl, rfl, rfl, rfl, rfl⟩
  · intro s
    exact ⟨rfl, rfl, rfl, rfl, fun points => ⟨rfl, rfl⟩,
      fun q => ⟨rfl, rfl⟩⟩

/-- Claim C1 (counterexample): the endpoint identities fail for a validly
constructed plotter with a negative screen position: for
`posX = -3, width = 2, minX = 0, maxX = 1`, `pixelXForValue(minX)` is
`trunc(-3 + 0.5) = -2`, not `posX = -3` (truncation toward zero differs
from rounding half up on negatives). -/
theorem pixel_endpoints_counterexample :
    PlotUtility.make (-3) 0 2 2 0 1 0 1 = some cexPlotter ∧
    (cexPlotter.getXPixelForXValue cexPlotter.minX).1 ≠ cexPlotter.posX := by
  refine ⟨rfl, ?_⟩
  norm_num [cexPlotter, PlotUtility.getXPixelForXValue, ratTrunc,
    Int.ceil_neg]

/-- Claim C1 (amended): for every plotter constructed with valid geometry
and non-negative screen position (`posX ≥ 0`, `posY ≥ 0`), the coordinate
transforms map range endpoints exactly to the plot-area edges:
`pixelXForValue(minX) = posX`, `pixelXForValue(maxX) = posX + width - 1`,
`pixelYForValue(maxY) = posY`, `pixelYForValue(minY) = posY + height - 1`. -/
theorem pixel_endpoints (pX pY w h : ℤ) (mX MX mY MY : ℚ) (s : PlotUtility)
    (hs : PlotUtility.make pX pY w h mX MX mY MY = some s)
    (hpX : 0 ≤ pX) (hpY : 0 ≤ pY) :
    (s.getXPixelForXValue s.minX).1 = s.posX ∧
    (s.getXPixelForXValue s.maxX).1 = s.posX + s.width - 1 ∧
    (s.getYPixelForYValue s.maxY).1 = s.posY ∧
    (s.getYPixelForYValue s.minY).1 = s.posY + s.height - 1 := by
  obtain ⟨⟨hw, hh, hx, hy⟩, rfl⟩ := make_eq_some hs
  refine ⟨?_, ?_, ?_, ?_⟩
  · show ratTrunc ((pX : ℚ) + ((w : ℚ) - 1) * (mX - mX) / (MX - mX) + 1/2)
        = pX
    rw [sub_self, mul_zero, zero_div, add_zero]
    exact ratTrunc_intCast_add_half pX hpX
  · show ratTrunc ((pX : ℚ) + ((w : ℚ) - 1) * (MX - mX) / (MX - mX) + 1/2)
        = pX + w - 1
    rw [mul_div_assoc, div_self (sub_ne_zero.mpr (ne_of_gt hx)), mul_one,
      show (pX : ℚ) + ((w : ℚ) - 1) = ((pX + w - 1 : ℤ) : ℚ) by
        push_cast; ring]
    exact ratTrunc_intCast_add_half (pX + w - 1) (by omega)
  · show ratTrunc ((pY : ℚ) + ((h : ℚ) - 1) * (MY - MY) / (MY - mY) + 1/2)
        = pY
    rw [sub_self, mul_zero, zero_div, add_zero]
    exact ratTrunc_intCast_add_half pY hpY
  · show ratTrunc ((pY : ℚ) + ((h : ℚ) - 1) * (MY - mY) / (MY - mY) + 1/2)
        = pY + h - 1
    rw [mul_div_assoc, div_self (sub_ne_zero.mpr (ne_of_gt hy)), mul_one,
      show (pY : ℚ) + ((h : ℚ) - 1) = ((pY + h - 1 : ℤ) : ℚ) by
        push_cast; ring]
    exact ratTrunc_intCast_add_half (pY + h - 1) (by omega)

/-- Witness for the amended C1 at the concrete sample plotter. -/
theorem pixel_endpoints_witness :
    (0 : ℤ) ≤ 0 ∧
    (samplePlotter.getXPixelForXValue samplePlotter.minX).1 =
      samplePlotter.posX ∧
    (samplePlotter.getXPixelForXValue samplePlotter.maxX).1 =
      samplePlotter.posX + samplePlotter.width - 1 ∧
    (samplePlotter.getYPixelForYValue samplePlotter.maxY).1 =
      samplePlotter.posY ∧
    (samplePlotter.getYPixelForYValue samplePlotter.minY).1 =
      samplePlotter.posY + samplePlotter.height - 1 := by
  have hmain :=
    pixel_endpoints 0 0 100 50 0 10 0 5 samplePlotter rfl le_rfl le_rfl
  exact ⟨le_rfl, hmain.1, hmain.2.1, hmain.2.2.1, hmain.2.2.2⟩

/-- Claim C2: `setXTicks` (resp. `setYTicks`) fails and leaves the stored
tick list (and the whole state) unchanged when any tick value is outside
the axis range, and on all-valid input succeeds and replaces the stored
list wholesale by the input sequence. -/
theorem setTicks_atomic :
    ∀ (s : PlotUtility) (ticks : List PlotTick),
      ((∃ tick ∈ ticks, tick.value < s.minX ∨ s.maxX < tick.value) →
        s.setXTicks ticks = (false, s)) ∧
      ((∀ tick ∈ ticks, s.minX ≤ tick.value ∧ tick.value ≤ s.maxX) →
        s.setXTicks ticks = (true, { s with xTicks := ticks })) ∧
      ((∃ tick ∈ ticks, tick.value < s.minY ∨ s.maxY < tick.value) →
        s.setYTicks ticks = (false, s)) ∧
      ((∀ tick ∈ ticks, s.minY ≤ tick.value ∧ tick.value ≤ s.maxY) →
        s.setYTicks ticks = (true, { s with yTicks := ticks })) := by
  intro s ticks
  refine ⟨?_, ?_, ?_, ?_⟩
  · rintro ⟨tick, ht, hbad⟩
    unfold PlotUtility.setXTicks
    split_ifs with hc
    · have := List.all_eq_true.mp hc tick ht
      simp only [Bool.and_eq_true, decide_eq_true_eq] at this
      rcases hbad with hb | hb
      · exact absurd this.1 (not_le.mpr hb)
      · exact absurd this.2 (not_le.mpr hb)
    · rfl
  · intro hgood
    unfold PlotUtility.setXTicks
    split_ifs with hc
    · rfl
    · refine absurd (List.all_eq_true.mpr fun tick ht => ?_) hc
      simp only [Bool.and_eq_true, decide_eq_true_eq]
      exact hgood tick ht
  · rintro ⟨tick, ht, hbad⟩
    unfold PlotUtility.setYTicks
    split_ifs with hc
    · have := List.all_eq_true.mp hc tick ht
      simp only [Bool.and_eq_true, decide_eq_true_eq] at this
      rcases hbad with hb | hb
      · exact absurd this.1 (not_le.mpr hb)
      · exact absurd this.2 (not_le.mpr hb)
    · rfl
  · intro hgood
    unfold PlotUtility.setYTicks
    split_ifs with hc
    · rfl
    · refine absurd (List.all_eq_true.mpr fun tick ht => ?_) hc
      simp only [Bool.and_eq_true, decide_eq_true_eq]
      exact hgood tick ht

/-- Witness for C2: a tick at 11 is rejected by the sample plotter
(range [0, 10]) with no change of state; a tick at 5 is installed. -/
theorem setTicks_atomic_witness :
    samplePlotter.setXTicks [⟨11, "t"⟩] = (false, samplePlotter) ∧
    samplePlotter.setXTicks [⟨5, "t"⟩] =
      (true, { samplePlotter with xTicks := [⟨5, "t"⟩] }) := by
  constructor
  · exact (setTicks_atomic samplePlotter [⟨11, "t"⟩]).1
      ⟨⟨11, "t"⟩, List.mem_singleton_self _,
        Or.inr (by norm_num [samplePlotter])⟩
  · refine (setTicks_atomic samplePlotter [⟨5, "t"⟩]).2.1 fun tick ht => ?_
    rw [List.mem_singleton] at ht
    subst ht
    exact ⟨by norm_num [samplePlotter], by norm_num [samplePlotter]⟩

/-- Claim C3: for every validly constructed plotter, `pixelXForValue` is
monotonically non-decreasing and `pixelYForValue` is monotonically
non-increasing. -/
theorem pixel_transforms_monotone (pX pY w h : ℤ) (mX MX mY MY : ℚ)
    (s : PlotUtility)
    (hs : PlotUtility.make pX pY w h mX MX mY MY = some s) :
    (∀ x1 x2 : ℚ, x1 < x2 →
      (s.getXPixelForXValue x1).1 ≤ (s.getXPixelForXValue x2).1) ∧
    (∀ y1 y2 : ℚ, y1 < y2 →
      (s.getYPixelForYValue y2).1 ≤ (s.getYPixelForYValue y1).1) := by
  obtain ⟨⟨hw, hh, hx, hy⟩, rfl⟩ := make_eq_some hs
  have hdx : (0 : ℚ) < MX - mX := sub_pos.mpr hx
  have hdy : (0 : ℚ) < MY - mY := sub_pos.mpr hy
  have hw1 : (0 : ℚ) ≤ (w : ℚ) - 1 := by
    have hcast : (1 : ℚ) ≤ (w : ℚ) := by exact_mod_cast hw
    linarith
  have hh1 : (0 : ℚ) ≤ (h : ℚ) - 1 := by
    have hcast : (1 : ℚ) ≤ (h : ℚ) := by exact_mod_cast hh
    linarith
  constructor
  · intro x1 x2 hlt
    apply ratTrunc_mono
    have hnum : ((w : ℚ) - 1) * (x1 - mX) ≤ ((w : ℚ) - 1) * (x2 - mX) :=
      mul_le_mul_of_nonneg_left (by linarith) hw1
    have hquot := (div_le_div_iff_of_pos_right hdx).mpr hnum
    linarith
  · intro y1 y2 hlt
    apply ratTrunc_mono
    have hnum : ((h : ℚ) - 1) * (MY - y2) ≤ ((h : ℚ) - 1) * (MY - y1) :=
      mul_le_mul_of_nonneg_left (by linarith) hh1
    have hquot := (div_le_div_iff_of_pos_right hdy).mpr hnum
    linarith

/-- Witness for C3 at the sample plotter with `x1 = 0 < 1 = x2` and
`y1 = 0 < 1 = y2`. -/
theorem pixel_transforms_monotone_witness :
    (0 : ℚ) < 1 ∧
    (samplePlotter.getXPixelForXValue 0).1 ≤
      (samplePlotter.getXPixelForXValue 1).1 ∧
    (samplePlotter.getYPixelForYValue 1).1 ≤
      (samplePlotter.getYPixelForYValue 0).1 := by
  have hmain :=
    pixel_transforms_monotone 0 0 100 50 0 10 0 5 samplePlotter rfl
  exact ⟨by norm_num, hmain.1 0 1 (by norm_num), hmain.2 0 1 (by norm_num)⟩

/-- Claim C7: construction fails exactly when `width ≤ 0`, `height ≤ 0`,
`minX ≥ maxX` or `minY ≥ maxY`; on failure no instance is produced, and on
success the instance holds exactly the eight supplied values. -/
theorem make_validity :
    ∀ (pX pY w h : ℤ) (mX MX mY MY : ℚ),
      (PlotUtility.make pX pY w h mX MX mY MY = none ↔
        w ≤ 0 ∨ h ≤ 0 ∨ MX ≤ mX ∨ MY ≤ mY) ∧
      ∀ s : PlotUtility, PlotUtility.make pX pY w h mX MX mY MY = some s →
        s.posX = pX ∧ s.posY = pY ∧ s.width = w ∧ s.height = h ∧
        s.minX = mX ∧ s.maxX = MX ∧ s.minY = mY ∧ s.maxY = MY := by
  intro pX pY w h mX MX mY MY
  constructor
  · constructor
    · intro hnone
      unfold PlotUtility.make at hnone
      split_ifs at hnone with hc
      by_contra hno
      push_neg at hno
      exact hc ⟨hno.1, hno.2.1, hno.2.2.1, hno.2.2.2⟩
    · intro hbad
      have hcond : ¬(0 < w ∧ 0 < h ∧ mX < MX ∧ mY < MY) := by
        rintro ⟨h1, h2, h3, h4⟩
        rcases hbad with hb | hb | hb | hb
        · exact absurd h1 (not_lt.mpr hb)
        · exact absurd h2 (not_lt.mpr hb)
        · exact absurd h3 (not_lt.mpr hb)
        · exact absurd h4 (not_lt.mpr hb)
      unfold PlotUtility.make
      rw [if_neg hcond]
  · intro s hs
    obtain ⟨-, rfl⟩ := make_eq_some hs
    exact ⟨rfl, rfl, rfl, rfl, rfl, rfl, rfl, rfl⟩

/-- Witness for C7: a zero width is rejected; the successful sample
construction stores the supplied width. -/
theorem make_validity_witness :
    PlotUtility.make 0 0 0 50 0 10 0 5 = none ∧
    samplePlotter.width = 100 := by
  constructor
  · exact (make_validity 0 0 0 50 0 10 0 5).1.mpr (Or.inl le_rfl)
  · exact ((make_validity 0 0 100 50 0 10 0 5).2 samplePlotter rfl).2.2.1

/-- Claim C9: every tick installed by a successful `setXTicks` /
`setYTicks` call is reported by `drawXTicks` / `drawYTicks` with a
relative position in the closed interval [0, 1]. -/
theorem relativePosition_unit_interval :
    ∀ (s s' : PlotUtility) (ticks : List PlotTick),
      (s.minX < s.maxX → s.setXTicks ticks = (true, s') →
        ∀ r ∈ (s'.drawXTicks).1, 0 ≤ r.2.2.1 ∧ r.2.2.1 ≤ 1) ∧
      (s.minY < s.maxY → s.setYTicks ticks = (true, s') →
        ∀ r ∈ (s'.drawYTicks).1, 0 ≤ r.2.2.1 ∧ r.2.2.1 ≤ 1) := by
  intro s s' ticks
  constructor
  · intro hrange hset r hr
    obtain ⟨rfl, hin⟩ := setXTicks_eq_true hset
    simp only [PlotUtility.drawXTicks, drawXTicksLoop_eq_map,
      List.mem_map] at hr
    obtain ⟨tick, htick, rfl⟩ := hr
    have hv := hin tick htick
    have hd : (0 : ℚ) < s.maxX - s.minX := sub_pos.mpr hrange
    constructor
    · show (0 : ℚ) ≤ (tick.value - s.minX) / (s.maxX - s.minX)
      exact div_nonneg (by linarith [hv.1]) (le_of_lt hd)
    · show (tick.value - s.minX) / (s.maxX - s.minX) ≤ 1
      rw [div_le_one hd]
      linarith [hv.2]
  · intro hrange hset r hr
    obtain ⟨rfl, hin⟩ := setYTicks_eq_true hset
    simp only [PlotUtility.drawYTicks, drawYTicksLoop_eq_map,
      List.mem_map] at hr
    obtain ⟨tick, htick, rfl⟩ := hr
    have hv := hin tick htick
    have hd : (0 : ℚ) < s.maxY - s.minY := sub_pos.mpr hrange
    constructor
    · show (0 : ℚ) ≤ (tick.value - s.minY) / (s.maxY - s.minY)
      exact div_nonneg (by linarith [hv.1]) (le_of_lt hd)
    · show (tick.value - s.minY) / (s.maxY - s.minY) ≤ 1
      rw [div_le_one hd]
      linarith [hv.2]

/-- Witness for C9 at the sample plotter with one tick at value 5. -/
theorem relativePosition_unit_interval_witness :
    samplePlotter.minX < samplePlotter.maxX ∧
    ∀ r ∈ (({ samplePlotter with xTicks := [⟨5, "t"⟩] } :
        PlotUtility).drawXTicks).1, 0 ≤ r.2.2.1 ∧ r.2.2.1 ≤ 1 := by
  refine ⟨by norm_num [samplePlotter], ?_⟩
  exact (relativePosition_unit_interval samplePlotter
      { samplePlotter with xTicks := [⟨5, "t"⟩] } [⟨5, "t"⟩]).1
    (by norm_num [samplePlotter]) rfl

/-- Witness for C10: installing a tick through `setXTicks` leaves the
stored y-tick list of the sample plotter unchanged. -/
theorem frame_conditions_witness :
    samplePlotter.setXTicks [⟨5, "t"⟩] =
      (true, { samplePlotter with xTicks := [⟨5, "t"⟩] }) ∧
    ({ samplePlotter with xTicks := [⟨5, "t"⟩] } : PlotUtility).yTicks =
      samplePlotter.yTicks := by
  refine ⟨rfl, ?_⟩
  exact (frame_conditions.1 samplePlotter
    { samplePlotter with xTicks := [⟨5, "t"⟩] } [⟨5, "t"⟩] rfl).1

example : (samplePlotter.getXPixelForXValue 5).1 = 50 := by
  norm_num [samplePlotter, PlotUtility.getXPixelForXValue, ratTrunc]

example : (samplePlotter.getXPixelForXValue 10).1 = 99 := by
  norm_num [samplePlotter, PlotUtility.getXPixelForXValue, ratTrunc]

example : (cexPlotter.getXPixelForXValue 0).1 = -2 := by
  norm_num [cexPlotter, PlotUtility.getXPixelForXValue, ratTrunc,
    Int.ceil_neg]
